import Mathlib

/-
Verification development for the wiki image-page cleanup bot
(bot/aw_images.py). Python strings are modelled as lists of characters
and every string operation the bot performs is translated into a
recursive function on such lists. The per-page body of `main` is
modelled as a pure function from the page's data (title, template
names, extracted sections, header, footer, raw text) and the
operator's answers to the run's outcome for that page.
-/

abbrev Str := List Char

/-- The left brace character, written numerically. -/
def lbrace : Char := Char.ofNat 123

/-- The right brace character, written numerically. -/
def rbrace : Char := Char.ofNat 125

/-- Characters removed by Python str.strip(): space, tab, newline,
carriage return, vertical tab, form feed. -/
def isPyWs (c : Char) : Bool :=
  c == ' ' || c == '\t' || c == '\n' || c == '\r' ||
  c == Char.ofNat 11 || c == Char.ofNat 12

/-- Leading-whitespace removal (left half of Python str.strip). -/
def lstrip : Str → Str
  | [] => []
  | c :: cs => if isPyWs c then lstrip cs else c :: cs

/-- Trailing-whitespace removal (right half of Python str.strip). -/
def rstrip : Str → Str
  | [] => []
  | c :: cs =>
    match rstrip cs with
    | [] => if isPyWs c then [] else [c]
    | r => c :: r

/-- Python str.strip(). -/
def pyStrip (s : Str) : Str := rstrip (lstrip s)

/-- begins pat s: pat is a leading segment of s (Python str.startswith). -/
def begins : Str → Str → Bool
  | [], _ => true
  | _ :: _, [] => false
  | p :: ps, c :: cs => p == c && begins ps cs

/-- Index of the first occurrence of pat in s; none models Python
str.find returning -1. -/
def findIdx : Str → Str → Option Nat
  | pat, [] => if begins pat [] then some 0 else none
  | pat, c :: cs =>
    if begins pat (c :: cs) then some 0
    else (findIdx pat cs).map (fun n => n + 1)

/-- Python substring containment (the `in` operator on strings). -/
def containsSub (pat s : Str) : Bool := (findIdx pat s).isSome

/-- The part of s strictly before the first occurrence of pat (s itself
when pat does not occur). -/
def beforeFirst (pat s : Str) : Str :=
  match findIdx pat s with
  | some i => s.take i
  | none => s

/-! ## Template classification (aw_images.py lines 135-186) -/

def templates_licensing_ready : List Str :=
  [("Copyright game").toList, ("CC0").toList, ("CC-BY-SA-3.0").toList,
   ("Copyright missing").toList, ("Delete").toList, ("CC-BY-NC-SA").toList]

def templates_description_ready : List Str :=
  [("Map screenshot").toList, ("Screenshot").toList,
   ("File information").toList, ("Datamined texture").toList]

def eggTextureTok : Str := ("Egg texture").toList
def deleteTok : Str := ("Delete").toList
def copyrightGameTok : Str := ("Copyright game").toList
def devPlaceholderTok : Str := ("License/DEVELOPER NAME HERE").toList
def addVerb : Str := ("add").toList
def useVerb : Str := ("use").toList

structure Classification where
  description_ready : Bool
  egg_texture_ready : Bool
  licensing_ready : Bool
  copyright_game_ready : Bool
  verb : Str
deriving DecidableEq

/-- Flag values before the template loop (lines 155-159). -/
def initialFlags : Classification :=
  ⟨false, false, false, false, addVerb⟩

/-- One iteration of the template loop (lines 161-186). The Python code
raises each flag with a sequence of independent membership tests on the
template's title (`r in template_name` loops with break = any); a flag
once true stays true, so the iteration is the pointwise disjunction. -/
def classifyStep (c : Classification) (t : Str) : Classification where
  description_ready := c.description_ready
    || templates_description_ready.any (fun r => containsSub r t)
    || containsSub eggTextureTok t
    || containsSub deleteTok t
  egg_texture_ready := c.egg_texture_ready || containsSub eggTextureTok t
  licensing_ready := c.licensing_ready
    || templates_licensing_ready.any (fun r => containsSub r t)
    || containsSub deleteTok t
  copyright_game_ready := c.copyright_game_ready || containsSub copyrightGameTok t
  verb := if containsSub devPlaceholderTok t then useVerb else c.verb

/-- The whole template loop over the page's template titles. -/
def classify (ts : List Str) : Classification :=
  ts.foldl classifyStep initialFlags

/-- Per-template condition that raises description_ready. -/
def descTrigger (t : Str) : Bool :=
  templates_description_ready.any (fun r => containsSub r t)
  || containsSub eggTextureTok t
  || containsSub deleteTok t

/-- Per-template condition that raises licensing_ready. -/
def lrTrigger (t : Str) : Bool :=
  templates_licensing_ready.any (fun r => containsSub r t)
  || containsSub deleteTok t

/-- The title pattern of egg texture pages (line 149). -/
def eggTitleStart : Str := ("File:Egg-").toList

/-! ## Caption rewrite pipeline (aw_images.py lines 94-95, 217-245) -/

/-- Truncation at the first brace (lines 220-222): the cut happens only
when the first brace sits at a positive index (`if i > 0`). -/
def cutBrace (s : Str) : Str :=
  match findIdx [lbrace] s with
  | some i => if 0 < i then s.take i else s
  | none => s

def inTok : Str := (" in ").toList

/-- Truncation at the first " in " token (lines 223-225), same
positive-index guard. -/
def cutIn (s : Str) : Str :=
  match findIdx inTok s with
  | some i => if 0 < i then s.take i else s
  | none => s

/-- Lines 218-226: strip, truncate at the first brace, truncate at the
first " in ", strip again. -/
def truncPhase (s : Str) : Str :=
  pyStrip (cutIn (cutBrace (pyStrip s)))

/-- Line 227-228: drop a trailing period. -/
def cutTrailingDot (s : Str) : Str :=
  match s.getLast? with
  | some c => if c == '.' then s.dropLast else s
  | none => s

/-- Lines 231-232: str.replace removing every literal '2'. -/
def removeTwos (s : Str) : Str := s.filter (fun c => !(c == '2'))

/-- DIGITS_REGEX.sub('', s) (line 95): remove every decimal digit. -/
def remDigits (s : Str) : Str := s.filter (fun c => !c.isDigit)

/-- Python str.capitalize: first character uppercased, the rest
lowercased. -/
def pyCapitalize : Str → Str
  | [] => []
  | c :: cs => c.toUpper :: cs.map Char.toLower

def ocationTok : Str := ("ocation").toList
def eggTok : Str := ("Egg").toList
def ofTok : Str := (" of").toList

/-- LOCATION_REGEX.sub(repl='', ...) for the pattern
[lL]ocation([.]| of)? (line 94): a left-to-right non-overlapping scan;
at a match the matched text (the word, optionally followed by a period
or by " of") is dropped. Fuel-based structural recursion (the fuel is
the string length; every step consumes at least one character). -/
def locationSubFuel : Nat → Str → Str
  | 0, s => s
  | _ + 1, [] => []
  | fuel + 1, c :: cs =>
    if (c == 'l' || c == 'L') && begins (("ocation").toList) cs then
      let rest := cs.drop 7
      if begins (['.']) rest then locationSubFuel fuel (rest.drop 1)
      else if begins ofTok rest then locationSubFuel fuel (rest.drop 3)
      else locationSubFuel fuel rest
    else c :: locationSubFuel fuel cs

def locationSub (s : Str) : Str := locationSubFuel s.length s

def eggTextureCaption : Str := ("\x7b\x7bEgg texture\x7d\x7d").toList
def linkOpen : Str := ("[[").toList
def linkClose : Str := ("]]").toList
def locationPre : Str := ("the location of [[").toList

/-- Lines 230-232: remove the literal '2' characters when any are
present (a no-op otherwise, written as in the code). -/
def twosStep (s : Str) : Str :=
  if containsSub (['2']) s then removeTwos s else s

/-- Lines 217-245: the caption rewrite applied to a summary string when
the page is not yet description-ready. Returns the rewritten caption
and the choice the code itself assigns (only the Egg branch of an egg
texture page assigns one, line 240); for a non-egg page the operator is
asked instead, and for an egg page with no assignment the Python
variable `choice` is left over from an earlier iteration (stale). -/
def capPipeline (isEgg : Bool) (s0 : Str) : Str × Option Char :=
  let s1 := cutTrailingDot (truncPhase s0)
  let s2 := twosStep s1
  if containsSub ocationTok s2 then
    (locationPre ++ pyCapitalize (pyStrip (locationSub s2)) ++ linkClose, none)
  else if containsSub eggTok s2 then
    (if isEgg then (eggTextureCaption, some 'y')
     else (remDigits (linkOpen ++ s2 ++ linkClose), none))
  else (s2, none)

/-! ## Section extraction results and text composition
(aw_images.py lines 192-208 and 287-299) -/

/-- Per-page data handed to the loop body by the wiki-client
collaborator: the title, the titles of the templates used on the page
(as returned by templatesWithParams, full titles), the header / section
list / footer produced by extract_sections, and the raw page text. -/
structure Page where
  title : Str
  templateNames : List Str
  header : Str
  sections : List (Str × Str)
  footer : Str
  oldText : Str

/-- The operator's answers for one page: the "Keep this description?"
choice (line 249), the free-text answer to "Please describe the file:"
(line 281), and the "Do you want to accept these changes?" choice
(line 326). -/
structure Operator where
  keepChoice : Char
  describeInput : Str
  acceptChoice : Char

/-- The section-scanning loop of lines 196-200: successive matches
overwrite, so the last matching section wins. -/
def findSection (pred : Str → Bool) (sections : List (Str × Str)) : Option Str :=
  sections.foldl (fun acc sec => if pred sec.1 then some sec.2 else acc) none

def ummaryTok : Str := ("ummary").toList
def escriptionTok : Str := ("escription").toList
def icensTok : Str := ("icens").toList

/-- Line 197: a section counts as the summary when its title contains
"ummary" or "escription". -/
def summaryPred (t : Str) : Bool :=
  containsSub ummaryTok t || containsSub escriptionTok t

/-- Line 199: a section counts as the licensing section when its title
contains "icens". -/
def licensingPred (t : Str) : Bool := containsSub icensTok t

/-- The licensing section body (read at lines 199-200 and printed at
lines 284-285; never used in the composed text). -/
def licensingSection (p : Page) : Option Str :=
  findSection licensingPred p.sections

def isEggTitle (p : Page) : Bool := begins eggTitleStart p.title

/-- Lines 201-208: the summary source, with the egg-texture fallback and
the header fallback. -/
def summaryOption (p : Page) : Option Str :=
  match findSection summaryPred p.sections with
  | some s => some s
  | none =>
    if isEggTitle p then some eggTextureCaption
    else if 0 < p.header.length then some p.header else none

/-- Line 207: got_summary_from_header. -/
def consumedHeader (p : Page) : Bool :=
  match findSection summaryPred p.sections with
  | some _ => false
  | none => if isEggTitle p then false else decide (0 < p.header.length)

/-! ### textwrap.dedent (used at line 287) -/

/-- Indentation characters considered by textwrap.dedent. -/
def isIndentWs (c : Char) : Bool := c == ' ' || c == '\t'

/-- Split at newline characters, Python style. -/
def splitNl : Str → List Str
  | [] => [[]]
  | c :: cs =>
    if c == '\n' then [] :: splitNl cs
    else
      match splitNl cs with
      | [] => [[c]]
      | l :: ls => (c :: l) :: ls

/-- Rejoin lines with newline characters. -/
def joinNl : List Str → Str
  | [] => []
  | [l] => l
  | l :: ls => l ++ '\n' :: joinNl ls

/-- Longest common leading segment of two strings. -/
def lcp : Str → Str → Str
  | a :: as, b :: bs => if a == b then a :: lcp as bs else []
  | _, _ => []

/-- textwrap.dedent's first pass: a line holding only indentation
whitespace is normalised to empty. -/
def dedentNorm (l : Str) : Str :=
  if !l.isEmpty && l.all isIndentWs then [] else l

/-- The [ \t]* indent of a line. -/
def dedentIndent (l : Str) : Str := l.takeWhile isIndentWs

/-- The common margin of the normalised lines: the longest common
prefix of the indents of the lines holding a non-whitespace
character. -/
def dedentMargin (lines : List Str) : Str :=
  match (lines.filter (fun l => l.any (fun c => !isIndentWs c))).map dedentIndent with
  | [] => []
  | i :: is => is.foldl lcp i

/-- Margin removal from the front of one line. -/
def dedentCut (margin l : Str) : Str :=
  if begins margin l then l.drop margin.length else l

/-- textwrap.dedent: normalise whitespace-only lines, compute the
common margin, remove it from every line that starts with it. -/
def dedent (s : Str) : Str :=
  let lines := (splitNl s).map dedentNorm
  joinNl (lines.map (dedentCut (dedentMargin lines)))

/-- The sixteen spaces of code indentation inside the triple-quoted
template at lines 287-293. -/
def ind16 : Str := ("                ").toList

def summaryHeading : Str := ("== Summary ==").toList
def licensingHeading : Str := ("== Licensing ==").toList
def copyrightGameCall : Str := ("\x7b\x7bCopyright game\x7d\x7d").toList

/-- Lines 287-293: the triple-quoted template with the stripped
description formatted in, dedented, then stripped. -/
def composeCore (desc : Str) : Str :=
  pyStrip (dedent (
    '\n' :: ind16 ++ summaryHeading
    ++ '\n' :: ind16 ++ pyStrip desc
    ++ '\n' :: '\n' :: ind16 ++ licensingHeading
    ++ '\n' :: ind16 ++ copyrightGameCall
    ++ '\n' :: ind16))

/-- Lines 287-299: the full composed page text, with the stripped
header prepended when it was not consumed as the caption source and the
stripped footer appended. -/
def composeText (gotFromHeader : Bool) (header footer desc : Str) : Str :=
  let core := composeCore desc
  let h := pyStrip header
  let t1 := if !gotFromHeader && !h.isEmpty then h ++ '\n' :: '\n' :: core else core
  let f := pyStrip footer
  if !f.isEmpty then t1 ++ '\n' :: '\n' :: f else t1

/-! ## The per-page decision flow (aw_images.py lines 147-351) -/

/-- State after lines 214-265: the description chosen so far, the value
of description_ready after a possible 'r' choice (line 263-265), and
whether the Python variable `choice` was read without this iteration
assigning it (an egg texture page whose rewritten caption does not take
the Egg branch leaves `choice` stale at line 253). -/
structure BlockResult where
  descAfter : Option Str
  drAfter : Bool
  stale : Bool
deriving DecidableEq

/-- Line 214-215: description = summary.strip() when the page is
already description-ready and a summary source exists. -/
def initialDescription (cls : Classification) (so : Option Str) : Option Str :=
  match so with
  | some s => if cls.description_ready then some (pyStrip s) else none
  | none => none

def mapScreenshotOpen : Str := ("\x7b\x7bMap screenshot|").toList
def screenshotOpen : Str := ("\x7b\x7bScreenshot|").toList
def braceClose : Str := ("\x7d\x7d").toList

/-- Lines 253-265: what each choice does with the rewritten caption.
'b' opens a browser and leaves the description unset, like 'n'. -/
def applyChoice (cap : Str) (c : Char) : Option Str × Bool :=
  if c == 'y' then (some (pyStrip cap), false)
  else if c == 'n' then (none, false)
  else if c == 'm' then (some (mapScreenshotOpen ++ cap ++ braceClose), false)
  else if c == 's' then (some (screenshotOpen ++ cap ++ braceClose), false)
  else if c == 'b' then (none, false)
  else if c == 'r' then (some (pyStrip cap), true)
  else (none, false)

/-- Lines 214-265 as one step: when the summary source exists, strips
nonempty and the page is not description-ready, the caption is
rewritten and a choice is applied (the operator's for a non-egg page,
the code's own for an egg page); otherwise the state of line 214 is
kept. -/
def blockPhase (p : Page) (op : Operator) (cls : Classification)
    (so : Option Str) : BlockResult :=
  match so with
  | some s =>
    if !(pyStrip s).isEmpty && !cls.description_ready then
      match (if isEggTitle p then (capPipeline true s).2 else some op.keepChoice) with
      | none => ⟨none, cls.description_ready, true⟩
      | some c =>
        ⟨(applyChoice (capPipeline (isEggTitle p) s).1 c).1,
         cls.description_ready || (applyChoice (capPipeline (isEggTitle p) s).1 c).2,
         false⟩
    else ⟨initialDescription cls so, cls.description_ready, false⟩
  | none => ⟨initialDescription cls so, cls.description_ready, false⟩

/-- Lines 267-277: a ready page is skipped. The first test fires for
any page that is description-ready with a non-game licensing template;
then egg-titled pages need egg_texture_ready and copyright_game_ready,
other pages description_ready and licensing_ready. -/
def skipPhase (cls : Classification) (isEgg drAfter : Bool) : Bool :=
  (drAfter && (!cls.copyright_game_ready && cls.licensing_ready))
  || (if isEgg then cls.egg_texture_ready && cls.copyright_game_ready
      else drAfter && cls.licensing_ready)

inductive DescOutcome where
  | skip
  | use (d : Option Str)
deriving DecidableEq

def sTok : Str := ("s").toList
def skipTok : Str := ("skip").toList

/-- Lines 279-283: when the page is not description-ready and no
description was chosen, the operator is asked to describe the file;
answering 's' or 'skip' skips the page. -/
def describePhase (inp : Str) (drAfter : Bool) (d : Option Str) : DescOutcome :=
  if !drAfter && d.isNone then
    if inp == sTok || inp == skipTok then .skip else .use (some inp)
  else .use d

/-- Outcome of the loop body for one page. `skipped` is any `continue`
before the text is composed; `unchanged` is the `continue` of lines
301-304; `declined` means the composed change was shown and not saved
('n' or 'b' at line 326); `saved t` means put_text was called with t;
`staleChoice` is the read of an unassigned `choice` (line 253);
`crashNoneDescription` is `description.strip()` on None (line 293). -/
inductive RunOutcome where
  | skipped
  | unchanged
  | declined
  | saved (t : Str)
  | staleChoice
  | crashNoneDescription
deriving DecidableEq

/-- Lines 301-348: the equality check, the automatic acceptance for egg
texture pages (lines 312-314, 322-324), and the final choice chain of
lines 335-351. -/
def finalize (oldText newText : Str) (automatic : Bool) (accept : Char) : RunOutcome :=
  if oldText == newText then .unchanged
  else
    if automatic then .saved newText
    else if accept == 'n' then .declined
    else if accept == 'b' then .declined
    else if accept == 'y' then .saved newText
    else .declined

/-- Outcome plus the description that reached the composition step
(lines 287-293), when one did. -/
structure RunDetail where
  outcome : RunOutcome
  descUsed : Option Str
deriving DecidableEq

/-- Lines 287-348 from the point where a description is settled. -/
def composeAndFinalize (p : Page) (op : Operator) (gotFromHeader : Bool)
    (d : Option Str) : RunDetail :=
  match d with
  | none => ⟨.crashNoneDescription, none⟩
  | some dd =>
    ⟨finalize p.oldText (composeText gotFromHeader p.header p.footer dd)
       (isEggTitle p) op.acceptChoice, some dd⟩

/-- The loop body of main for one page (lines 147-351), as a function
of the page data and the operator's answers. -/
def runPageDetail (p : Page) (op : Operator) : RunDetail :=
  let cls := classify p.templateNames
  let blk := blockPhase p op cls (summaryOption p)
  if blk.stale then ⟨.staleChoice, none⟩
  else if skipPhase cls (isEggTitle p) blk.drAfter then ⟨.skipped, none⟩
  else
    match describePhase op.describeInput blk.drAfter blk.descAfter with
    | .skip => ⟨.skipped, none⟩
    | .use d => composeAndFinalize p op (consumedHeader p) d

def runPage (p : Page) (op : Operator) : RunOutcome :=
  (runPageDetail p op).outcome

/-! ## put_text and the save-retry loop (aw_images.py lines 61-91,
341-348) -/

/-- What page.save does on one attempt. -/
inductive SaveOutcome where
  | success
  | editConflict
  | serverError
  | spamBlacklist
  | lockedPage
  | pageSaveError
deriving DecidableEq

/-- The names bound at module level in bot/aw_images.py (lines 39-57
and the defs): the imports, the module constants and the module
functions. `config` is not among them. -/
def moduleGlobalNames : List String :=
  ["sys", "re", "dedent", "requests", "pywikibot",
   "AllpagesPageGenerator", "exceptions", "QuitKeyboardInterrupt",
   "getCategoryLinks", "extract_sections", "DEBUG", "BOT_TASK_AD",
   "FILE_NAMESPACE_ID", "ROOT_URL", "put_text", "LOCATION_REGEX",
   "DIGITS_REGEX", "main"]

/-- What a call to put_text does. savedTrue is `return True`; savedFalse
is `return False` (conflict, blacklist, lock and generic save errors);
sleepRetry is the `sleep; return None` branch; fatalServerError is the
raise of lines 79-80; nameErrorCrash is the evaluation of
`config.max_retries` (line 74) when no global `config` exists. -/
inductive PutResult where
  | savedTrue
  | savedFalse
  | sleepRetry
  | fatalServerError
  | nameErrorCrash
deriving DecidableEq

/-- put_text (lines 61-91). On a ServerError the handler evaluates
`count <= config.max_retries`: the name `config` is resolved in the
module's globals first; only when it is bound does the comparison
decide between the sleep-retry branch and the fatal raise. -/
def put_text (outcome : SaveOutcome) (count maxRetries : Nat) : PutResult :=
  match outcome with
  | .success => .savedTrue
  | .editConflict => .savedFalse
  | .serverError =>
    if moduleGlobalNames.contains ("config") then
      if count ≤ maxRetries then .sleepRetry else .fatalServerError
    else .nameErrorCrash
  | .spamBlacklist => .savedFalse
  | .lockedPage => .savedFalse
  | .pageSaveError => .savedFalse

/-! ## Concrete pages and operator answers used in counterexamples and
witnesses -/

/-- An operator who rejects everything: keep-choice 'n', description
input "x", accept-choice 'n'. -/
def opRejectAll : Operator := ⟨'n', ("x").toList, 'n'⟩

/-- An egg-titled page carrying both a licensing-ready template
(Copyright game) and a description-ready template (Screenshot). -/
def eggBothReadyPage : Page :=
  ⟨("File:Egg-Basic.png").toList,
   [("Template:Copyright game").toList, ("Template:Screenshot").toList],
   [], [], [], ("old text").toList⟩

/-- A non-egg page carrying a CC0 licensing template and a Screenshot
description template. -/
def plainBothReadyPage : Page :=
  ⟨("File:Map.png").toList,
   [("Template:CC0").toList, ("Template:Screenshot").toList],
   [], [], [], ("old text").toList⟩

/-- An egg-titled page with a Summary section and a Datamined texture
template. -/
def eggWithSummaryPage : Page :=
  ⟨("File:Egg-Basic.png").toList,
   [("Template:Datamined texture").toList],
   [], [(("Summary").toList, ("Hello").toList)], [], ("x").toList⟩

/-- An egg-titled page with no sections and no templates. -/
def eggBarePage : Page :=
  ⟨("File:Egg-W.png").toList, [], [], [], [], ("x").toList⟩

/-- A non-egg page with a Summary section and no templates. -/
def flamePage : Page :=
  ⟨("File:Pic.png").toList, [], [],
   [(("Summary").toList, (" A flame ").toList)], [], ("x").toList⟩

/-- An operator who rejects the derived caption, types a description and
accepts the composed change. -/
def opRejectThenDescribe : Operator := ⟨'n', ("A flame photo").toList, 'y'⟩

/-- An operator who rejects the derived caption and answers "skip" to
the description prompt. -/
def opRejectThenSkip : Operator := ⟨'n', ("skip").toList, 'y'⟩

/-- A description-ready non-egg page whose Summary section body spans
two lines. -/
def multilinePage : Page :=
  ⟨("File:Pic.png").toList, [("Template:Screenshot").toList],
   [], [(("Summary").toList, ("a\nb").toList)], [], ("x").toList⟩

/-- An operator who accepts the composed change. -/
def opAccept : Operator := ⟨'n', ("d").toList, 'y'⟩

/-- A caption that is an embedded template call: its first brace is at
index 0. -/
def braceFirstCaption : Str := ("\x7b\x7bScreenshot\x7d\x7d").toList

/-- A caption with an embedded template call after text. -/
def flameRoomCaption : Str := ("Flame room \x7bfoo\x7d ").toList

/-- A caption with a location clause. -/
def benchCaption : Str := ("A bench in the Fish room").toList

/-- A caption containing both "ocation" and "Egg". -/
def locationEggCaption : Str := ("Location of Egg").toList

/-- The caption of the spec's worked example. -/
def brickEggCaption : Str := ("Brick Egg2").toList

/-! ## Helper lemmas: classification -/

lemma classifyStep_dr (c : Classification) (t : Str) :
    (classifyStep c t).description_ready = (c.description_ready || descTrigger t) := by
  simp [classifyStep, descTrigger, Bool.or_assoc]

lemma classifyStep_lr (c : Classification) (t : Str) :
    (classifyStep c t).licensing_ready = (c.licensing_ready || lrTrigger t) := by
  simp [classifyStep, lrTrigger, Bool.or_assoc]

lemma classify_fold_dr (ts : List Str) (c : Classification) :
    (ts.foldl classifyStep c).description_ready
      = (c.description_ready || ts.any descTrigger) := by
  induction ts generalizing c with
  | nil => simp
  | cons t ts ih => simp [List.foldl_cons, ih, classifyStep_dr, Bool.or_assoc]

lemma classify_fold_lr (ts : List Str) (c : Classification) :
    (ts.foldl classifyStep c).licensing_ready
      = (c.licensing_ready || ts.any lrTrigger) := by
  induction ts generalizing c with
  | nil => simp
  | cons t ts ih => simp [List.foldl_cons, ih, classifyStep_lr, Bool.or_assoc]

lemma classify_dr (ts : List Str) :
    (classify ts).description_ready = ts.any descTrigger := by
  simp [classify, classify_fold_dr, initialFlags]

lemma classify_lr (ts : List Str) :
    (classify ts).licensing_ready = ts.any lrTrigger := by
  simp [classify, classify_fold_lr, initialFlags]

/-! ## C1: the description-ready classification -/

/-- C1 counterexample: the claim makes description_ready true whenever
the page title starts with "File:Egg-". For an egg-titled page with no
templates at all the classifier leaves description_ready false, while
the claimed right-hand side (title matches the egg-texture pattern)
holds, so the claimed equivalence fails at this page. -/
theorem classify_title_not_description_ready_cx :
    ¬ (((classify ([] : List Str)).description_ready = true) ↔
       ((∃ t ∈ ([] : List Str), ∃ r ∈ templates_description_ready ++ [eggTextureTok],
           containsSub r t = true)
        ∨ begins eggTitleStart (("File:Egg-Basic.png").toList) = true
        ∨ (∃ t ∈ ([] : List Str), containsSub deleteTok t = true))) := by
  decide

/-- C1 (amended): description_ready is true iff some template name
contains a member of the description-marker allow-list (Map screenshot,
Screenshot, File information, Datamined texture, Egg texture) or
contains the deletion marker "Delete"; the page title plays no part. A
deletion marker also makes licensing_ready true. -/
theorem classify_description_ready_iff (ts : List Str) :
    ((classify ts).description_ready = true ↔
      ∃ t ∈ ts, (∃ r ∈ templates_description_ready, containsSub r t = true)
        ∨ containsSub eggTextureTok t = true
        ∨ containsSub deleteTok t = true)
    ∧ ((∃ t ∈ ts, containsSub deleteTok t = true) →
        (classify ts).licensing_ready = true) := by
  constructor
  · rw [classify_dr, List.any_eq_true]
    constructor
    · rintro ⟨t, ht, hd⟩
      refine ⟨t, ht, ?_⟩
      simpa [descTrigger, List.any_eq_true, or_assoc] using hd
    · rintro ⟨t, ht, hd⟩
      refine ⟨t, ht, ?_⟩
      simpa [descTrigger, List.any_eq_true, or_assoc] using hd
  · rintro ⟨t, ht, hd⟩
    rw [classify_lr, List.any_eq_true]
    exact ⟨t, ht, by simp [lrTrigger, hd]⟩

/-- C1 witness: the amended equivalence applied to a page whose only
template is a bare Delete marker. -/
theorem classify_description_ready_iff_witness :
    (classify [deleteTok]).description_ready = true
    ∧ (classify [deleteTok]).licensing_ready = true := by
  refine ⟨?_, ?_⟩
  · exact (classify_description_ready_iff [deleteTok]).1.mpr
      ⟨deleteTok, by decide, Or.inr (Or.inr (by decide))⟩
  · exact (classify_description_ready_iff [deleteTok]).2
      ⟨deleteTok, by decide, by decide⟩

/-! ## Helper lemmas: heads of strings through stripping and cutting -/

lemma lstrip_head (l : Str) (a : Char) (t : Str) (h : lstrip l = a :: t) :
    isPyWs a = false := by
  induction l with
  | nil => simp [lstrip] at h
  | cons c cs ih =>
    simp only [lstrip] at h
    split at h
    · exact ih h
    · rename_i hc
      injection h with h1 _
      subst h1
      simpa using hc

lemma rstrip_headOf (l : Str) (a : Char) (t : Str) (h : rstrip l = a :: t) :
    ∃ u, l = a :: u := by
  cases l with
  | nil => simp [rstrip] at h
  | cons c cs =>
    simp only [rstrip] at h
    split at h
    · split at h
      · exact absurd h (by simp)
      · injection h with h1 _
        exact ⟨cs, by rw [h1]⟩
    · injection h with h1 _
      exact ⟨cs, by rw [h1]⟩

lemma pyStrip_head (s : Str) (a : Char) (t : Str) (h : pyStrip s = a :: t) :
    isPyWs a = false := by
  obtain ⟨u, hu⟩ := rstrip_headOf (lstrip s) a t h
  exact lstrip_head s a u hu

lemma cutBrace_headOf (v : Str) (a : Char) (t : Str) (h : cutBrace v = a :: t) :
    ∃ u, v = a :: u := by
  unfold cutBrace at h
  split at h
  · rename_i i _
    split at h
    · rename_i hi
      cases v with
      | nil => simp at h
      | cons c cs =>
        obtain ⟨j, rfl⟩ : ∃ j, i = j + 1 := ⟨i - 1, by omega⟩
        rw [List.take_succ_cons] at h
        injection h with h1 _
        exact ⟨cs, by rw [h1]⟩
    · exact ⟨t, h⟩
  · exact ⟨t, h⟩

lemma findIdx_zero (pat s : Str) (h : findIdx pat s = some 0) :
    begins pat s = true := by
  by_cases hb : begins pat s = true
  · exact hb
  · exfalso
    cases s with
    | nil => simp [findIdx, hb] at h
    | cons c cs =>
      simp only [findIdx, hb, if_false] at h
      rcases hf : findIdx pat cs with _ | n
      · rw [hf] at h
        simp at h
      · rw [hf] at h
        simp at h

lemma begins_cons (p c : Char) (ps cs : Str)
    (h : begins (p :: ps) (c :: cs) = true) : p = c ∧ begins ps cs = true := by
  simpa [begins, Bool.and_eq_true, beq_iff_eq] using h

/-! ## C4: truncation at the first brace -/

/-- C4 counterexample: for a caption whose first brace is at index 0
(an embedded template call at the very start), the claimed equality
fails: the code's guard `i > 0` leaves the caption whole, while the
substring strictly before the first brace is empty. -/
theorem brace_at_start_not_truncated_cx :
    containsSub [lbrace] (pyStrip braceFirstCaption) = true
    ∧ truncPhase braceFirstCaption
        ≠ pyStrip (beforeFirst [lbrace] (pyStrip braceFirstCaption)) := by
  decide

/-- C4 (amended): when the first brace of the stripped caption sits at
a positive index and the part before it does not contain " in ", the
caption after the truncation phase is exactly the part before the
first brace, trimmed. A caption that starts with a brace is left
untruncated. -/
theorem brace_truncation (s : Str) (i : Nat)
    (hf : findIdx [lbrace] (pyStrip s) = some i) (hi : 0 < i)
    (hin : containsSub inTok ((pyStrip s).take i) = false) :
    truncPhase s = pyStrip ((pyStrip s).take i) := by
  have hcb : cutBrace (pyStrip s) = (pyStrip s).take i := by
    simp [cutBrace, hf, hi]
  have hnone : findIdx inTok ((pyStrip s).take i) = none := by
    rcases hx : findIdx inTok ((pyStrip s).take i) with _ | j
    · rfl
    · rw [containsSub, hx] at hin
      simp at hin
  have hci : cutIn ((pyStrip s).take i) = (pyStrip s).take i := by
    simp [cutIn, hnone]
  rw [truncPhase, hcb, hci]

/-- C4 witness: the amended truncation applied to a caption reading
"Flame room", then a braced template call, whose first brace is at
index 11. -/
theorem brace_truncation_witness :
    truncPhase flameRoomCaption = pyStrip ((pyStrip flameRoomCaption).take 11) :=
  brace_truncation flameRoomCaption 11 (by decide) (by decide) (by decide)

/-! ## C5: truncation at the first " in " -/

/-- C5 (confirmed): whenever the caption at the " in " step (the
stripped caption, already cut at the first brace) contains " in ", the
caption after the truncation phase equals the part strictly before the
first " in ", trimmed. The guard `i > 0` never blocks this cut: the
caption at this step starts with a non-whitespace character, so a
found occurrence of " in " is at a positive index. -/
theorem in_token_truncation (s : Str)
    (h : containsSub inTok (cutBrace (pyStrip s)) = true) :
    truncPhase s = pyStrip (beforeFirst inTok (cutBrace (pyStrip s))) := by
  obtain ⟨i, hf⟩ : ∃ i, findIdx inTok (cutBrace (pyStrip s)) = some i := by
    rcases hx : findIdx inTok (cutBrace (pyStrip s)) with _ | i
    · rw [containsSub, hx] at h
      simp at h
    · exact ⟨i, rfl⟩
  have hipos : 0 < i := by
    rcases Nat.eq_zero_or_pos i with hz | hp
    · exfalso
      subst hz
      have hbeg := findIdx_zero _ _ hf
      rcases hu : cutBrace (pyStrip s) with _ | ⟨a, t⟩
      · rw [hu] at hbeg
        have : inTok = ' ' :: ('i' :: 'n' :: ' ' :: []) := rfl
        rw [this] at hbeg
        simp [begins] at hbeg
      · rw [hu] at hbeg
        have hit : inTok = ' ' :: ('i' :: 'n' :: ' ' :: []) := rfl
        rw [hit] at hbeg
        obtain ⟨hsp, _⟩ := begins_cons _ _ _ _ hbeg
        obtain ⟨u, hv⟩ := cutBrace_headOf (pyStrip s) a t hu
        have hws := pyStrip_head s a u hv
        rw [← hsp] at hws
        simp [isPyWs] at hws
    · exact hp
  have hci : cutIn (cutBrace (pyStrip s)) = (cutBrace (pyStrip s)).take i := by
    simp [cutIn, hf, hipos]
  have hbf : beforeFirst inTok (cutBrace (pyStrip s)) = (cutBrace (pyStrip s)).take i := by
    simp [beforeFirst, hf]
  rw [truncPhase, hci, hbf]

/-- C5 witness: the truncation applied to "A bench in the Fish room". -/
theorem in_token_truncation_witness :
    truncPhase benchCaption
      = pyStrip (beforeFirst inTok (cutBrace (pyStrip benchCaption))) :=
  in_token_truncation benchCaption (by decide)

/-! ## C6: the Egg wikilink rewrite -/

/-- C6 counterexample: a caption containing both "ocation" and "Egg"
takes the location rewrite, not the claimed wikilink-with-digits-removed
form. -/
theorem egg_caption_location_precedence_cx :
    containsSub eggTok locationEggCaption = true
    ∧ (capPipeline false locationEggCaption).1
        = ("the location of [[Egg]]").toList
    ∧ (capPipeline false locationEggCaption).1
        ≠ remDigits (linkOpen ++ locationEggCaption ++ linkClose) := by
  decide

/-- C6 (amended): for a caption that, at the wikilink step (after
truncation, trailing-period removal and the '2' removal), contains
"Egg" and does not contain "ocation", on a page whose title does not
match the egg-texture pattern, the derived caption is the caption
wrapped as a wikilink with every decimal digit removed. -/
theorem egg_wikilink (s : Str)
    (hLoc : containsSub ocationTok (twosStep (cutTrailingDot (truncPhase s))) = false)
    (hEgg : containsSub eggTok (twosStep (cutTrailingDot (truncPhase s))) = true) :
    (capPipeline false s).1
      = remDigits (linkOpen ++ twosStep (cutTrailingDot (truncPhase s)) ++ linkClose) := by
  simp [capPipeline, hLoc, hEgg]

/-- C6 witness: the spec's worked example, caption "Brick Egg2" giving
"[[Brick Egg]]". -/
theorem egg_wikilink_witness :
    (capPipeline false brickEggCaption).1 = ("[[Brick Egg]]").toList := by
  rw [egg_wikilink brickEggCaption (by decide) (by decide)]
  decide

/-! ## C9: the save-retry loop -/

/-- C9 (code slip): the claim describes the intended bounded
retry-with-sleep loop, but bot/aw_images.py never imports or binds a
global `config`, so the ServerError handler's very first expression
`count <= config.max_retries` (line 74) raises a NameError for every
retry count and every configured maximum: the save is never retried and
no pywikibot ServerError is ever re-raised. -/
theorem put_text_server_error_name_error (count maxRetries : Nat) :
    put_text SaveOutcome.serverError count maxRetries
      = PutResult.nameErrorCrash := by
  simp only [put_text]
  rw [if_neg (by decide)]

/-! ## Helper lemmas: outcomes of the per-page flow -/

lemma applyChoice_n (cap : Str) : applyChoice cap 'n' = (none, false) := by
  unfold applyChoice
  rw [if_neg (by decide), if_pos (by decide)]

lemma applyChoice_y (cap : Str) :
    applyChoice cap 'y' = (some (pyStrip cap), false) := by
  unfold applyChoice
  rw [if_pos (by decide)]

lemma finalize_saved (o n : Str) (a : Bool) (c : Char) (t : Str)
    (h : finalize o n a c = RunOutcome.saved t) : t = n ∧ ¬ o = n := by
  unfold finalize at h
  split at h
  · simp at h
  · rename_i hne
    refine ⟨?_, by simpa [beq_iff_eq] using hne⟩
    split at h
    · injection h with h1
      exact h1.symm
    · split at h
      · simp at h
      · split at h
        · simp at h
        · split at h
          · injection h with h1
            exact h1.symm
          · simp at h

lemma composeAndFinalize_saved (p : Page) (op : Operator) (g : Bool)
    (d : Option Str) (t : Str) (dd : Option Str)
    (h : composeAndFinalize p op g d = ⟨RunOutcome.saved t, dd⟩) :
    ∃ x, d = some x ∧ dd = some x
      ∧ t = composeText g p.header p.footer x ∧ ¬ p.oldText = t := by
  cases d with
  | none => simp [composeAndFinalize] at h
  | some x =>
    simp only [composeAndFinalize, RunDetail.mk.injEq] at h
    obtain ⟨h1, h2⟩ := h
    obtain ⟨ht, hne⟩ := finalize_saved _ _ _ _ _ h1
    exact ⟨x, rfl, h2.symm, ht, by rw [ht]; exact hne⟩

/-- Any saved outcome of the per-page flow carries the composed text of
the description it records, and that text differs from the old text. -/
lemma run_saved (p : Page) (op : Operator) (t : Str) (dd : Option Str)
    (h : runPageDetail p op = ⟨RunOutcome.saved t, dd⟩) :
    ∃ x, dd = some x
      ∧ t = composeText (consumedHeader p) p.header p.footer x
      ∧ ¬ p.oldText = t := by
  simp only [runPageDetail] at h
  split at h
  · simp at h
  · split at h
    · simp at h
    · split at h
      · simp at h
      · rename_i d hd
        obtain ⟨x, _, hdd, ht, hne⟩ := composeAndFinalize_saved p op _ d t dd h
        exact ⟨x, hdd, ht, hne⟩

/-! ## C7: no save of identical text -/

/-- C7 (confirmed): the per-page flow never calls put_text with a text
equal to the page's old text; the `old_text == new_text` check of lines
301-304 skips the page before the save choice is offered, so a page
already in rewritten form is never edited. -/
theorem no_save_of_identical_text (p : Page) (op : Operator) :
    runPage p op ≠ RunOutcome.saved p.oldText := by
  intro hcontra
  rcases hdet : runPageDetail p op with ⟨out, dd⟩
  rw [runPage, hdet] at hcontra
  change out = RunOutcome.saved p.oldText at hcontra
  rw [hcontra] at hdet
  obtain ⟨x, _, ht, hne⟩ := run_saved p op p.oldText dd hdet
  exact hne rfl

lemma blockPhase_ready (p : Page) (op : Operator) (cls : Classification)
    (so : Option Str) (h : cls.description_ready = true) :
    blockPhase p op cls so = ⟨initialDescription cls so, true, false⟩ := by
  cases so with
  | none => simp [blockPhase, h]
  | some s => simp [blockPhase, h]

/-! ## C2: the fixed egg-texture caption -/

/-- C2 counterexample: an egg-titled page that already has a Summary
section (body "Hello") and a Datamined texture template composes its
Summary section from "Hello", not from the fixed egg-texture caption,
and saves it automatically. -/
theorem egg_title_caption_not_fixed_cx :
    isEggTitle eggWithSummaryPage = true
    ∧ (runPageDetail eggWithSummaryPage opRejectAll).descUsed
        = some (("Hello").toList)
    ∧ ¬ (("Hello").toList = eggTextureCaption) := by
  decide

/-- C2 (amended): for an egg-titled page with no section whose title
matches the summary/description patterns, the description reaching the
composition step — when one does — is exactly the fixed egg-texture
caption, whatever the header and the remaining sections hold. -/
theorem egg_caption_fixed_when_no_summary (p : Page) (op : Operator)
    (hEgg : isEggTitle p = true)
    (hNoSum : findSection summaryPred p.sections = none) :
    (runPageDetail p op).descUsed = none
    ∨ (runPageDetail p op).descUsed = some eggTextureCaption := by
  have hso : summaryOption p = some eggTextureCaption := by
    simp [summaryOption, hNoSum, hEgg]
  cases hdr : (classify p.templateNames).description_ready with
  | true =>
    have hblk : blockPhase p op (classify p.templateNames) (summaryOption p)
        = ⟨some eggTextureCaption, true, false⟩ := by
      rw [blockPhase_ready p op _ _ hdr, hso]
      simp only [initialDescription, hdr]
      decide
    have hrun : runPageDetail p op
        = if skipPhase (classify p.templateNames) (isEggTitle p) true
          then ⟨RunOutcome.skipped, none⟩
          else composeAndFinalize p op (consumedHeader p) (some eggTextureCaption) := by
      simp only [runPageDetail, hblk]
      rfl
    rw [hrun]
    split
    · left
      rfl
    · right
      simp [composeAndFinalize]
  | false =>
    have hblk : blockPhase p op (classify p.templateNames) (summaryOption p)
        = ⟨some eggTextureCaption, false, false⟩ := by
      rw [hso]
      simp only [blockPhase, hEgg, hdr]
      rw [if_pos (by decide), if_true]
      decide
    have hrun : runPageDetail p op
        = if skipPhase (classify p.templateNames) (isEggTitle p) false
          then ⟨RunOutcome.skipped, none⟩
          else composeAndFinalize p op (consumedHeader p) (some eggTextureCaption) := by
      simp only [runPageDetail, hblk]
      rfl
    rw [hrun]
    split
    · left
      rfl
    · right
      simp [composeAndFinalize]

/-- C2 witness: the amended statement applied to a bare egg-titled
page. -/
theorem egg_caption_fixed_when_no_summary_witness :
    (runPageDetail eggBarePage opRejectAll).descUsed = none
    ∨ (runPageDetail eggBarePage opRejectAll).descUsed = some eggTextureCaption :=
  egg_caption_fixed_when_no_summary eggBarePage opRejectAll (by decide) (by decide)

/-! ## C3: pages already carrying both readiness templates -/

/-- C3 counterexample: an egg-titled page carrying both a
licensing-ready template (Copyright game) and a description-ready
template (Screenshot) is not skipped: the egg skip test of lines
270-273 asks for an Egg texture template next to Copyright game, so the
page is recomposed and saved automatically. -/
theorem both_ready_egg_page_saved_cx :
    eggBothReadyPage.templateNames.any
        (fun t => templates_licensing_ready.any (fun r => containsSub r t)) = true
    ∧ eggBothReadyPage.templateNames.any
        (fun t => templates_description_ready.any (fun r => containsSub r t)) = true
    ∧ runPage eggBothReadyPage opRejectAll
        = RunOutcome.saved
            (("== Summary ==\n\x7b\x7bEgg texture\x7d\x7d\n\n== Licensing ==\n\x7b\x7bCopyright game\x7d\x7d").toList) := by
  decide

/-- C3 (amended): a page carrying both a licensing-ready and a
description-ready template is skipped without any save whenever its
title does not start with "File:Egg-"; an egg-titled page is skipped
under the further condition that the Copyright game template is absent
or an Egg texture template is present. -/
theorem both_ready_page_skipped (p : Page) (op : Operator)
    (hlr : p.templateNames.any
        (fun t => templates_licensing_ready.any (fun r => containsSub r t)) = true)
    (hdr : p.templateNames.any
        (fun t => templates_description_ready.any (fun r => containsSub r t)) = true)
    (hside : isEggTitle p = false
      ∨ (classify p.templateNames).copyright_game_ready = false
      ∨ (classify p.templateNames).egg_texture_ready = true) :
    runPage p op = RunOutcome.skipped := by
  have hdr' : (classify p.templateNames).description_ready = true := by
    rw [classify_dr, List.any_eq_true]
    rw [List.any_eq_true] at hdr
    obtain ⟨t, ht, hx⟩ := hdr
    exact ⟨t, ht, by simp [descTrigger, hx]⟩
  have hlr' : (classify p.templateNames).licensing_ready = true := by
    rw [classify_lr, List.any_eq_true]
    rw [List.any_eq_true] at hlr
    obtain ⟨t, ht, hx⟩ := hlr
    exact ⟨t, ht, by simp [lrTrigger, hx]⟩
  have hskip : skipPhase (classify p.templateNames) (isEggTitle p) true = true := by
    unfold skipPhase
    cases hcg : (classify p.templateNames).copyright_game_ready with
    | false => simp [hlr']
    | true =>
      cases hie : isEggTitle p with
      | false => simp [hlr']
      | true =>
        have hetr : (classify p.templateNames).egg_texture_ready = true := by
          rcases hside with h | h | h
          · rw [hie] at h
            exact absurd h (by simp)
          · rw [hcg] at h
            exact absurd h (by simp)
          · exact h
        simp [hetr, hcg]
  simp only [runPage, runPageDetail,
    blockPhase_ready p op (classify p.templateNames) (summaryOption p) hdr']
  simp [hskip]

/-- C3 witness: a non-egg page with CC0 and Screenshot templates is
skipped. -/
theorem both_ready_page_skipped_witness :
    runPage plainBothReadyPage opRejectAll = RunOutcome.skipped :=
  both_ready_page_skipped plainBothReadyPage opRejectAll
    (by decide) (by decide) (Or.inl (by decide))

/-! ## C8: the reject choice -/

/-- C8 counterexample: after the operator rejects the derived caption
with 'n', the run still solicits a manual description (line 279-281)
and, when the operator supplies one and accepts the composed change,
put_text is called: the page is not left unedited. -/
theorem reject_choice_still_saves_cx :
    opRejectThenDescribe.keepChoice = 'n'
    ∧ runPage flamePage opRejectThenDescribe
        = RunOutcome.saved
            (("== Summary ==\nA flame photo\n\n== Licensing ==\n\x7b\x7bCopyright game\x7d\x7d").toList) := by
  decide

/-- C8 (amended): rejecting the derived caption with 'n' discards it,
after which the operator is prompted for a manual description; the page
is skipped without composition or save exactly when that prompt is
answered with "s" or "skip". For a non-egg page that is not
description-ready, 'n' followed by "s"/"skip" always yields a skip. -/
theorem reject_then_skip_input_skips (p : Page) (op : Operator)
    (hEgg : isEggTitle p = false)
    (hdr : (classify p.templateNames).description_ready = false)
    (hkeep : op.keepChoice = 'n')
    (hinp : op.describeInput = skipTok ∨ op.describeInput = sTok) :
    runPage p op = RunOutcome.skipped := by
  have hblk : blockPhase p op (classify p.templateNames) (summaryOption p)
      = ⟨none, false, false⟩ := by
    rcases hso : summaryOption p with _ | s
    · simp [blockPhase, initialDescription, hdr]
    · cases hse : (pyStrip s).isEmpty with
      | true =>
        simp [blockPhase, hse, initialDescription, hdr]
      | false =>
        simp [blockPhase, hse, hEgg, hdr, hkeep, applyChoice_n]
  have hdesc : describePhase op.describeInput false none = DescOutcome.skip := by
    rcases hinp with h | h <;> rw [h] <;> decide
  simp only [runPage, runPageDetail, hblk]
  simp [skipPhase, hEgg, hdesc]

/-- C8 witness: the amended statement applied to the flame page with
answers 'n' then "skip". -/
theorem reject_then_skip_input_skips_witness :
    runPage flamePage opRejectThenSkip = RunOutcome.skipped :=
  reject_then_skip_input_skips flamePage opRejectThenSkip
    (by decide) (by decide) (by decide) (Or.inl (by decide))

/-! ## Helper lemmas: line splitting, stripping and composition -/

lemma splitNl_cons_nl (r : Str) : splitNl ('\n' :: r) = [] :: splitNl r := by
  simp [splitNl]

lemma splitNl_of_not_mem (a : Str) (h : ('\n') ∉ a) : splitNl a = [a] := by
  induction a with
  | nil => rfl
  | cons c cs ih =>
    have hc : (c == '\n') = false := by
      simp only [beq_eq_false_iff_ne, ne_eq]
      intro he
      exact h (by rw [he]; exact List.mem_cons_self _ _)
    have ht := ih (fun hm => h (List.mem_cons_of_mem c hm))
    simp [splitNl, hc, ht]

lemma splitNl_append (a r : Str) (h : ('\n') ∉ a) :
    splitNl (a ++ '\n' :: r) = a :: splitNl r := by
  induction a with
  | nil => simp [splitNl]
  | cons c cs ih =>
    have hc : (c == '\n') = false := by
      simp only [beq_eq_false_iff_ne, ne_eq]
      intro he
      exact h (by rw [he]; exact List.mem_cons_self _ _)
    have ht := ih (fun hm => h (List.mem_cons_of_mem c hm))
    simp [splitNl, hc, ht]

lemma lstrip_cons_ws (c : Char) (l : Str) (h : isPyWs c = true) :
    lstrip (c :: l) = lstrip l := by
  simp [lstrip, h]

lemma lstrip_cons_not (c : Char) (l : Str) (h : isPyWs c = false) :
    lstrip (c :: l) = c :: l := by
  simp [lstrip, h]

lemma lstrip_append_head (l r : Str) (c : Char) (cs : Str)
    (hl : l = c :: cs) (h : isPyWs c = false) :
    lstrip (l ++ r) = l ++ r := by
  subst hl
  rw [List.cons_append, lstrip_cons_not _ _ h, ← List.cons_append]

lemma rstrip_append_ws (ys : Str) (c : Char) (hc : isPyWs c = true) :
    rstrip (ys ++ [c]) = rstrip ys := by
  induction ys with
  | nil => simp [rstrip, hc]
  | cons d ds ih =>
    rw [List.cons_append, rstrip, ih, rstrip]

lemma rstrip_append_last (ys : Str) (c : Char) (hc : isPyWs c = false) :
    rstrip (ys ++ [c]) = ys ++ [c] := by
  induction ys with
  | nil => simp [rstrip, hc]
  | cons d ds ih =>
    rw [List.cons_append, rstrip, ih]
    rcases hds : ds ++ [c] with _ | ⟨e, es⟩
    · exact absurd hds (by simp)
    · rfl

lemma indentWs_of_pyWs (c : Char) (h : isPyWs c = false) :
    isIndentWs c = false := by
  revert h
  unfold isPyWs isIndentWs
  cases h1 : c == ' ' <;> cases h2 : c == '\t' <;> simp_all

lemma takeWhile_indent (pre x : Str)
    (hpre : ∀ c ∈ pre, isIndentWs c = true)
    (hx : ∀ c cs, x = c :: cs → isIndentWs c = false) :
    (pre ++ x).takeWhile isIndentWs = pre := by
  induction pre with
  | nil =>
    cases x with
    | nil => rfl
    | cons c cs => simp [List.takeWhile_cons, hx c cs rfl]
  | cons d ds ih =>
    simp [List.takeWhile_cons, hpre d (List.mem_cons_self d ds),
      ih (fun c hc => hpre c (List.mem_cons_of_mem d hc))]

lemma begins_append (a b : Str) : begins a (a ++ b) = true := by
  induction a with
  | nil => rfl
  | cons c cs ih => simp [begins, ih]

/-! ## C10: the shape of the composed text -/

lemma dedent_seven (x : Str) (c : Char) (cs : Str) (hx1 : ('\n') ∉ x)
    (hxc : x = c :: cs) (hc : isIndentWs c = false) :
    dedent ('\n' :: ((ind16 ++ summaryHeading) ++ '\n' :: ((ind16 ++ x)
      ++ '\n' :: '\n' :: ((ind16 ++ licensingHeading)
      ++ '\n' :: ((ind16 ++ copyrightGameCall) ++ '\n' :: ind16)))))
    = '\n' :: (summaryHeading ++ '\n' :: (x ++ '\n' :: '\n'
        :: (licensingHeading ++ '\n' :: (copyrightGameCall ++ ['\n'])))) := by
  have hx16 : ('\n') ∉ ind16 ++ x := by
    intro hm
    rcases List.mem_append.mp hm with h | h
    · exact absurd h (by decide)
    · exact hx1 h
  have hs : splitNl ('\n' :: ((ind16 ++ summaryHeading) ++ '\n' :: ((ind16 ++ x)
      ++ '\n' :: '\n' :: ((ind16 ++ licensingHeading)
      ++ '\n' :: ((ind16 ++ copyrightGameCall) ++ '\n' :: ind16)))))
      = [[], ind16 ++ summaryHeading, ind16 ++ x, [],
         ind16 ++ licensingHeading, ind16 ++ copyrightGameCall, ind16] := by
    rw [splitNl_cons_nl, splitNl_append _ _ (by decide),
      splitNl_append _ _ hx16, splitNl_cons_nl,
      splitNl_append _ _ (by decide), splitNl_append _ _ (by decide),
      splitNl_of_not_mem _ (by decide)]
  have hnormx : dedentNorm (ind16 ++ x) = ind16 ++ x := by
    have hall : (ind16 ++ x).all isIndentWs = false := by
      rw [List.all_append, hxc]
      simp [hc]
    simp [dedentNorm, hall]
  have hnmap : [[], ind16 ++ summaryHeading, ind16 ++ x, [],
      ind16 ++ licensingHeading, ind16 ++ copyrightGameCall, ind16].map dedentNorm
      = [[], ind16 ++ summaryHeading, ind16 ++ x, [],
         ind16 ++ licensingHeading, ind16 ++ copyrightGameCall, []] := by
    simp only [List.map_cons, List.map_nil, hnormx,
      show dedentNorm ([] : Str) = [] from by decide,
      show dedentNorm (ind16 ++ summaryHeading) = ind16 ++ summaryHeading from by decide,
      show dedentNorm (ind16 ++ licensingHeading) = ind16 ++ licensingHeading from by decide,
      show dedentNorm (ind16 ++ copyrightGameCall) = ind16 ++ copyrightGameCall from by decide,
      show dedentNorm ind16 = [] from by decide]
  have hanyx : ((ind16 ++ x).any fun ch => !isIndentWs ch) = true := by
    rw [List.any_append, hxc]
    simp [hc]
  have htwx : (ind16 ++ x).takeWhile isIndentWs = ind16 := by
    refine takeWhile_indent ind16 x (by decide) ?_
    intro a as ha
    rw [hxc] at ha
    injection ha with h1 _
    rw [← h1]
    exact hc
  have hmarg : dedentMargin [[], ind16 ++ summaryHeading, ind16 ++ x, [],
      ind16 ++ licensingHeading, ind16 ++ copyrightGameCall, []] = ind16 := by
    unfold dedentMargin
    simp only [List.filter_cons, List.filter_nil, hanyx,
      show (([] : Str).any fun ch => !isIndentWs ch) = false from by decide,
      show ((ind16 ++ summaryHeading).any fun ch => !isIndentWs ch) = true from by decide,
      show ((ind16 ++ licensingHeading).any fun ch => !isIndentWs ch) = true from by decide,
      show ((ind16 ++ copyrightGameCall).any fun ch => !isIndentWs ch) = true from by decide]
    simp only [Bool.false_eq_true, eq_self_iff_true, if_true, if_false,
      List.map_cons, List.map_nil,
      show dedentIndent (ind16 ++ summaryHeading) = ind16 from by decide,
      show dedentIndent (ind16 ++ licensingHeading) = ind16 from by decide,
      show dedentIndent (ind16 ++ copyrightGameCall) = ind16 from by decide,
      show dedentIndent (ind16 ++ x) = ind16 from htwx]
    decide
  have hcutx : dedentCut ind16 (ind16 ++ x) = x := by
    unfold dedentCut
    rw [if_pos (begins_append ind16 x), List.drop_left]
  simp only [dedent]
  rw [hs, hnmap, hmarg]
  simp only [List.map_cons, List.map_nil, hcutx,
    show dedentCut ind16 ([] : Str) = [] from by decide,
    show dedentCut ind16 (ind16 ++ summaryHeading) = summaryHeading from by decide,
    show dedentCut ind16 (ind16 ++ licensingHeading) = licensingHeading from by decide,
    show dedentCut ind16 (ind16 ++ copyrightGameCall) = copyrightGameCall from by decide]
  simp [joinNl]

lemma pyStrip_result (x : Str) :
    pyStrip ('\n' :: (summaryHeading ++ '\n' :: (x ++ '\n' :: '\n'
      :: (licensingHeading ++ '\n' :: (copyrightGameCall ++ ['\n'])))))
    = summaryHeading ++ '\n' :: (x ++ '\n' :: '\n'
        :: (licensingHeading ++ '\n' :: copyrightGameCall)) := by
  unfold pyStrip
  rw [lstrip_cons_ws _ _ (by decide)]
  rw [lstrip_append_head _ _ '=' (("= Summary ==").toList) (by decide) (by decide)]
  have hM : summaryHeading ++ '\n' :: (x ++ '\n' :: '\n'
        :: (licensingHeading ++ '\n' :: (copyrightGameCall ++ ['\n'])))
      = (summaryHeading ++ '\n' :: (x ++ '\n' :: '\n'
          :: (licensingHeading ++ '\n' :: copyrightGameCall))) ++ ['\n'] := by
    simp [List.append_assoc]
  rw [hM, rstrip_append_ws _ _ (by decide)]
  have hC : copyrightGameCall = (("\x7b\x7bCopyright game\x7d").toList) ++ [rbrace] := by
    decide
  have hM2 : summaryHeading ++ '\n' :: (x ++ '\n' :: '\n'
        :: (licensingHeading ++ '\n' :: copyrightGameCall))
      = (summaryHeading ++ '\n' :: (x ++ '\n' :: '\n'
          :: (licensingHeading ++ '\n' :: (("\x7b\x7bCopyright game\x7d").toList)))) ++ [rbrace] := by
    rw [hC]
    simp [List.append_assoc]
  rw [hM2, rstrip_append_last _ _ (by decide), ← hM2]

lemma composeCore_single_line (d : Str) (hnl : ('\n') ∉ pyStrip d) :
    composeCore d = summaryHeading ++ '\n' :: (pyStrip d ++ '\n' :: '\n'
      :: (licensingHeading ++ '\n' :: copyrightGameCall)) := by
  rcases hx : pyStrip d with _ | ⟨c, cs⟩
  · unfold composeCore
    rw [hx]
    decide
  · have hcpy : isPyWs c = false := pyStrip_head d c cs hx
    have hc : isIndentWs c = false := indentWs_of_pyWs c hcpy
    have hxn : ('\n') ∉ pyStrip d := hnl
    rw [hx] at hxn
    unfold composeCore
    rw [show ('\n' :: ind16 ++ summaryHeading
        ++ '\n' :: ind16 ++ pyStrip d
        ++ '\n' :: '\n' :: ind16 ++ licensingHeading
        ++ '\n' :: ind16 ++ copyrightGameCall
        ++ '\n' :: ind16)
      = ('\n' :: ((ind16 ++ summaryHeading) ++ '\n' :: ((ind16 ++ pyStrip d)
        ++ '\n' :: '\n' :: ((ind16 ++ licensingHeading)
        ++ '\n' :: ((ind16 ++ copyrightGameCall) ++ '\n' :: ind16))))) from by
      simp [List.append_assoc]]
    rw [hx, dedent_seven (c :: cs) c cs hxn rfl hc, pyStrip_result]

lemma composeText_single (g : Bool) (header footer d : Str)
    (hnl : ('\n') ∉ pyStrip d) :
    composeText g header footer d
    = (if g = false ∧ ¬ pyStrip header = []
        then pyStrip header ++ '\n' :: '\n' :: [] else [])
      ++ (summaryHeading ++ '\n' :: (pyStrip d ++ '\n' :: '\n'
          :: (licensingHeading ++ '\n' :: copyrightGameCall)))
      ++ (if ¬ pyStrip footer = []
          then '\n' :: '\n' :: pyStrip footer else []) := by
  simp only [composeText]
  rw [composeCore_single_line d hnl]
  rcases hh : pyStrip header with _ | ⟨a, as⟩ <;>
    rcases hf : pyStrip footer with _ | ⟨b, bs⟩ <;>
      cases g <;>
        simp [List.append_assoc]

/-- C10 (amended): for every page the run saves whose recorded
description holds no newline, the saved text is exactly the preserved
stripped header (when present and not consumed as the caption source),
a Summary section holding the stripped caption, a Licensing section
holding exactly the Copyright game call, and the preserved stripped
footer: the composed text depends only on the header, footer and
caption, so every other original section body — the old Licensing body
included — is discarded. -/
theorem saved_text_shape (p : Page) (op : Operator) (t x : Str)
    (hrun : runPageDetail p op = ⟨RunOutcome.saved t, some x⟩)
    (hnl : ('\n') ∉ pyStrip x) :
    t = (if consumedHeader p = false ∧ ¬ pyStrip p.header = []
          then pyStrip p.header ++ '\n' :: '\n' :: [] else [])
        ++ (summaryHeading ++ '\n' :: (pyStrip x ++ '\n' :: '\n'
            :: (licensingHeading ++ '\n' :: copyrightGameCall)))
        ++ (if ¬ pyStrip p.footer = []
            then '\n' :: '\n' :: pyStrip p.footer else []) := by
  obtain ⟨y, hy, ht, _⟩ := run_saved p op t (some x) hrun
  injection hy with hy'
  rw [ht, ← hy']
  exact composeText_single (consumedHeader p) p.header p.footer x hnl

/-- C10 counterexample: a description-ready page whose Summary section
body spans two lines is saved with text that keeps sixteen spaces of
template indentation before the caption's first line and before the
Licensing section, so the saved text is not the claimed clean
header/Summary/Licensing/footer shape. -/
theorem multiline_caption_indent_cx :
    runPage multilinePage opAccept
      = RunOutcome.saved
          (("== Summary ==\n                a\nb\n\n                == Licensing ==\n                \x7b\x7bCopyright game\x7d\x7d").toList)
    ∧ ¬ ((("== Summary ==\n                a\nb\n\n                == Licensing ==\n                \x7b\x7bCopyright game\x7d\x7d").toList)
        = summaryHeading ++ '\n' :: ((("a\nb").toList) ++ '\n' :: '\n'
            :: (licensingHeading ++ '\n' :: copyrightGameCall))) := by
  decide

/-- C10 witness: the amended shape applied to the flame page save. -/
theorem saved_text_shape_witness :
    (("== Summary ==\nA flame photo\n\n== Licensing ==\n\x7b\x7bCopyright game\x7d\x7d").toList)
    = (if consumedHeader flamePage = false ∧ ¬ pyStrip flamePage.header = []
        then pyStrip flamePage.header ++ '\n' :: '\n' :: [] else [])
      ++ (summaryHeading ++ '\n' :: (pyStrip (("A flame photo").toList) ++ '\n' :: '\n'
          :: (licensingHeading ++ '\n' :: copyrightGameCall)))
      ++ (if ¬ pyStrip flamePage.footer = []
          then '\n' :: '\n' :: pyStrip flamePage.footer else []) :=
  saved_text_shape flamePage opRejectThenDescribe _ (("A flame photo").toList)
    (by decide) (by decide)
